import Mathlib

/-!
# Verification of the `generate-code` QR batch pipeline (`service` package)

A shallow embedding of the Go `service` package (files `service/generate.go`
style source shipped with the repository): `SanitizeFilename`, `SanitizeFolder`,
`CleanNumber`, `GenerateQR`, `RunGenerate`, `readExcel`, `readCSV`, and the
pixel rendering loop, together with theorems about the spec's claims.

Modelling choices:
* Go strings are modelled as `List Char` (`Str`).  Go's `len` counts bytes;
  the model counts characters, which agrees on ASCII data (all identity and
  status strings here are ASCII).
* The filesystem is a pair of lists (existing regular files, existing
  directories).  `os.MkdirAll`, `os.Stat`, `os.Create` and the PNG encode are
  driven by an `Env` of oracles for the operations whose success depends on
  the OS; the third-party QR encoder (`github.com/skip2/go-qrcode`) is an
  abstract `encode : Str → Option (List (List Bool))` in the same `Env`
  (`none` models `qrcode.New` returning an error).
* `RunGenerate`'s worker fan-out updates the shared `Result` under a mutex;
  the aggregate it produces is modelled by the sequential fold `processRows`
  (one `GenerateQR` call and one counter update per record, in input order).
  The semaphore discipline of the dispatch loop itself is modelled separately
  as a small-step relation `PoolStep`.
* `filepath.Join`, `filepath.Ext`, `filepath.Base`, `filepath.Dir` are
  modelled for clean, `/`-separated paths without trailing separators, which
  is how the pipeline builds every path it uses.
-/

namespace GenQR

/-- Go strings, modelled as lists of characters. -/
abbrev Str := List Char

/-- Embed a Lean string literal into the model's string type. -/
def ofString (s : String) : Str := s.data

/-- A parsed input row: Go's `map[string]string`, as an association list whose
first matching key wins (insertions cons at the front, so later insertions
shadow earlier ones, as in a Go map). -/
abbrev Record := List (Str × Str)

/-- Go map indexing `row[k]`: the zero value `""` when the key is absent. -/
def lookupField : Record → Str → Str
  | [], _ => []
  | (k, v) :: rest, key => if k = key then v else lookupField rest key

/-- Key membership in a record (Go's `_, ok := row[k]`). -/
def hasField (r : Record) (k : Str) : Bool :=
  r.any fun kv => decide (kv.1 = k)

/-- Character class of the regex `[^a-zA-Z0-9._-]` used by `SanitizeFilename`
(the *allowed* characters). -/
def isFilenameChar (c : Char) : Bool :=
  c.isAlphanum || c == '.' || c == '_' || c == '-'

/-- Character class of the regex `[^a-zA-Z0-9_-]` used by `SanitizeFolder`
(the *allowed* characters). -/
def isFolderChar (c : Char) : Bool :=
  c.isAlphanum || c == '_' || c == '-'

/-- Model of `reg.ReplaceAllString(name, "_")`: every character outside the allowed
class becomes `'_'`. -/
def sanitizeCore (allowed : Char → Bool) (s : Str) : Str :=
  s.map fun c => if allowed c then c else '_'

/-- Model of `strings.Trim(name, "_")`: drop leading and trailing underscores. -/
def trimUnderscore (s : Str) : Str :=
  ((s.dropWhile (· == '_')).reverse.dropWhile (· == '_')).reverse

/-- Go `SanitizeFilename`. -/
def SanitizeFilename (s : Str) : Str :=
  trimUnderscore (sanitizeCore isFilenameChar s)

/-- Go `SanitizeFolder`. -/
def SanitizeFolder (s : Str) : Str :=
  trimUnderscore (sanitizeCore isFolderChar s)

/-- Go `CleanNumber`: `\D` replaced by the empty string, i.e. keep digits. -/
def CleanNumber (s : Str) : Str :=
  s.filter Char.isDigit

/-- Model of `strings.ReplaceAll(s, " ", "_")`. -/
def replaceSpaces (s : Str) : Str :=
  s.map fun c => if c == ' ' then '_' else c

/-- ASCII white space recognized by `strings.TrimSpace`. -/
def isSpaceChar (c : Char) : Bool :=
  c == ' ' || c == '\t' || c == '\n' || c == '\r' || c == '\x0b' || c == '\x0c'

/-- Model of `strings.TrimSpace` (on the ASCII data the pipeline handles). -/
def trimSpace (s : Str) : Str :=
  ((s.dropWhile isSpaceChar).reverse.dropWhile isSpaceChar).reverse

/-- Model of `filepath.Join` of two clean, non-empty components. -/
def joinPath (a b : Str) : Str := a ++ '/' :: b

/-- Model of `strings.ToLower` (ASCII). -/
def toLowerStr (s : Str) : Str := s.map Char.toLower

/-- Model of `filepath.Ext`: the suffix of the last path component starting at its
final dot, `""` when that component has no dot. -/
def pathExt (p : Str) : Str :=
  let revLast := p.reverse.takeWhile fun c => !(c == '/')
  let revNoExt := revLast.takeWhile fun c => !(c == '.')
  if revNoExt.length == revLast.length then [] else '.' :: revNoExt.reverse

/-- Model of `filepath.Base` for paths without a trailing separator. -/
def pathBase (p : Str) : Str :=
  (p.reverse.takeWhile fun c => !(c == '/')).reverse

/-- Model of `filepath.Dir` for paths without a trailing separator. -/
def pathDir (p : Str) : Str :=
  let pre := (p.reverse.dropWhile fun c => !(c == '/')).reverse
  if pre = [] then ofString "."
  else if pre = ofString "/" then ofString "/"
  else pre.dropLast

/-- The cleaned national-ID field (`nik` in `GenerateQR`). -/
def nikOf (row : Record) : Str :=
  CleanNumber (lookupField row (ofString "NO IDENTITAS"))

/-- The cleaned household-ID field (`noKK` in `GenerateQR`). -/
def kkOf (row : Record) : Str :=
  CleanNumber (lookupField row (ofString "NOMOR KK"))

/-- The sanitized full-name component (`nama` in `GenerateQR`). -/
def namaOf (row : Record) : Str :=
  SanitizeFilename (replaceSpaces (lookupField row (ofString "NAMA LENGKAP")))

/-- The trimmed QR payload (`qrValue` in `GenerateQR`). -/
def qrValueOf (row : Record) : Str :=
  trimSpace (lookupField row (ofString "KODE QR"))

/-- The district folder segment (`kec` in `GenerateQR`, with its default). -/
def kecOf (row : Record) : Str :=
  let k := SanitizeFolder (lookupField row (ofString "KECAMATAN"))
  if k = [] then ofString "Kecamatan" else k

/-- The sub-district folder segment (`kel` in `GenerateQR`, with its default). -/
def kelOf (row : Record) : Str :=
  let k := SanitizeFolder (lookupField row (ofString "KELURAHAN"))
  if k = [] then ofString "Kelurahan" else k

/-- The folder derivation `folder := filepath.Join(baseFolder, kec, kel)`. -/
def derivedFolder (row : Record) (base : Str) : Str :=
  joinPath (joinPath base (kecOf row)) (kelOf row)

/-- The filename derivation `filename := SanitizeFilename(fmt.Sprintf("%s-%s-%s.png", nik, noKK, nama))`. -/
def derivedFilename (row : Record) : Str :=
  SanitizeFilename
    (nikOf row ++ ofString "-" ++ kkOf row ++ ofString "-" ++ namaOf row ++ ofString ".png")

/-- The path derivation `outPath := filepath.Join(folder, filename)`. -/
def derivedPath (row : Record) (base : Str) : Str :=
  joinPath (derivedFolder row base) (derivedFilename row)

/-- Filesystem state: the regular files and the directories that exist. -/
structure FS where
  files : List Str
  dirs : List Str
deriving DecidableEq

/-- Environment of OS / library oracles for the effectful calls. -/
structure Env where
  /-- Does `os.MkdirAll` succeed at this folder? -/
  mkdirOk : Str → Bool
  /-- Does `os.Create` succeed at this path? -/
  createOk : Str → Bool
  /-- Does the PNG encoder write succeed at this path? -/
  pngOk : Str → Bool
  /-- Model of `qrcode.New(payload, qrcode.Highest)`: `none` is an encoding error,
  `some m` the border-free module matrix `qr.Bitmap()`. -/
  encode : Str → Option (List (List Bool))
  /-- Does `zipFolder` succeed? -/
  zipOk : Bool

/-- Model of `os.MkdirAll`: records the directory; creating an existing directory is a
no-op. -/
def mkdirAll (fs : FS) (d : Str) : FS :=
  if d ∈ fs.dirs then fs else { fs with dirs := d :: fs.dirs }

/-- Go `GenerateQR(row, baseFolder) (string, string)`, with the filesystem
threaded explicitly.  Error messages keep the Go format-string text, without
the appended OS error value. -/
def GenerateQR (env : Env) (fs : FS) (row : Record) (baseFolder : Str) :
    Str × Str × FS :=
  let nik := nikOf row
  let noKK := kkOf row
  let qrValue := qrValueOf row
  if nik.length ≠ 16 then
    (ofString "invalid", ofString "Invalid NIK: " ++ nik, fs)
  else if noKK.length ≠ 16 then
    (ofString "invalid", ofString "Invalid KK: " ++ noKK, fs)
  else
    let folder := derivedFolder row baseFolder
    if env.mkdirOk folder = false then
      (ofString "error", ofString "Failed to create dir", fs)
    else
      let fs1 := mkdirAll fs folder
      let filename := derivedFilename row
      let outPath := joinPath folder filename
      if outPath ∈ fs1.files then
        (ofString "skip", filename, fs1)
      else if qrValue.length > 500 then
        (ofString "invalid", ofString "QR content too long", fs1)
      else
        match env.encode qrValue with
        | none => (ofString "error", ofString "Failed to create QR", fs1)
        | some _matrix =>
          if env.createOk outPath = false then
            (ofString "error", ofString "Failed to save", fs1)
          else
            let fs2 := { fs1 with files := outPath :: fs1.files }
            if env.pngOk outPath = false then
              (ofString "error", ofString "PNG encode error", fs2)
            else
              (ofString "ok", filename, fs2)

/-- The aggregate result of a batch run. -/
structure Result where
  Generated : Nat
  Skipped : Nat
  Invalid : Nat
  Errors : List Str
  ZipFilename : Str
deriving DecidableEq

/-- The initial aggregate `Result` with an empty error list. -/
def initResult : Result := ⟨0, 0, 0, [], []⟩

/-- The mutex-guarded `switch status` block of `RunGenerate`'s worker. -/
def applyOutcome (res : Result) (status msg : Str) : Result :=
  if status = ofString "ok" then { res with Generated := res.Generated + 1 }
  else if status = ofString "skip" then { res with Skipped := res.Skipped + 1 }
  else if status = ofString "invalid" then { res with Invalid := res.Invalid + 1 }
  else if status = ofString "error" then { res with Errors := res.Errors ++ [msg] }
  else res

/-- The worker fan-out of `RunGenerate`, linearized: each record contributes
exactly one `GenerateQR` call and one counter update. -/
def processRows (env : Env) (base : Str) (rows : List Record) (acc : Result × FS) :
    Result × FS :=
  rows.foldl
    (fun acc row =>
      let out := GenerateQR env acc.2 row base
      (applyOutcome acc.1 out.1 out.2.1, out.2.2))
    acc

/-- One record whose cells of wrong arity come back from `csv.Reader.Read` as
`ErrFieldCount`-free data: `.ok cells`; `.error ()` is a row-level parse error
(e.g. a quoting error).  The field-count check itself is applied by the model,
as `encoding/csv` does with its default `FieldsPerRecord = 0`. -/
abbrev CsvItem := Except Unit (List Str)

/-- The map-building loop shared by both readers:
`for i, cell := range row { if i < len(headers) { data[headers[i]] = cell } }`. -/
def mkRecord (headers cells : List Str) : Record :=
  (headers.zip cells).foldl (fun d kv => kv :: d) []

/-- The body of `readCSV`'s read loop: rows whose parse errors or whose field
count differs from the header's are skipped (`continue` on `err != nil`,
which includes `csv.ErrFieldCount`). -/
def csvRecords (headers : List Str) : List CsvItem → List Record
  | [] => []
  | .error _ :: rest => csvRecords headers rest
  | .ok rec :: rest =>
    if rec.length = headers.length then
      mkRecord headers rec :: csvRecords headers rest
    else
      csvRecords headers rest

/-- Go `readCSV`, over the stream of `csv.Reader.Read` results (header first;
an empty stream is `io.EOF` on the header read). -/
def readCSV : List CsvItem → Except Str (List Record)
  | [] => .error (ofString "EOF")
  | .error _ :: _ => .error (ofString "csv read error")
  | .ok headers :: rest => .ok (csvRecords headers rest)

/-- Go `readExcel`, over the result of `excelize` `GetRows` (an `.error` is an
open/read failure of the workbook). -/
def readExcel : Except Str (List (List Str)) → Except Str (List Record)
  | .error e => .error e
  | .ok [] => .error (ofString "empty excel file")
  | .ok [_] => .error (ofString "empty excel file")
  | .ok (headers :: dataRows) => .ok (dataRows.map (mkRecord headers))

/-- The two parses of the uploaded file, one per supported reader. -/
structure InputFile where
  excel : Except Str (List (List Str))
  csv : List CsvItem

/-- The format dispatch of `RunGenerate`. -/
def readRows (file : InputFile) (ext : Str) : Except Str (List Record) :=
  if ext = ofString ".xlsx" ∨ ext = ofString ".xls" then readExcel file.excel
  else if ext = ofString ".csv" then readCSV file.csv
  else .error (ofString "unsupported file format: " ++ ext)

/-- Go `RunGenerate(filePath, outputFolder) (*Result, error)`: reader dispatch,
output-directory creation, bounded fan-out over the records (linearized), and
zip packaging.  The returned filesystem reflects the side effects performed up
to the point of return. -/
def RunGenerate (env : Env) (fs : FS) (file : InputFile)
    (filePath outputFolder : Str) : Except Str Result × FS :=
  let ext := toLowerStr (pathExt filePath)
  match readRows file ext with
  | .error e => (.error e, fs)
  | .ok rows =>
    if env.mkdirOk outputFolder = false then
      (.error (ofString "failed to create output dir"), fs)
    else
      let fs0 := mkdirAll fs outputFolder
      let p := processRows env outputFolder rows (initResult, fs0)
      let zipFilename := pathBase outputFolder ++ ofString ".zip"
      let zipPath := joinPath (pathDir outputFolder) zipFilename
      if env.zipOk = false then
        (.error (ofString "failed to zip"), p.2)
      else
        (.ok { p.1 with ZipFilename := zipFilename },
         { p.2 with files := zipPath :: p.2.files })

/-- The total `Result.Generated + Result.Skipped + Result.Invalid + len(Result.Errors)`. -/
def totalOutcomes (r : Result) : Nat :=
  r.Generated + r.Skipped + r.Invalid + r.Errors.length

/-! ### The rendering loop of `GenerateQR` (lines 127–152)

The RGBA canvas is monochrome by construction, so a pixel is modelled as a
single `Bool` (`true` = opaque black, `false` = the white background). -/

/-- A raster image as a pixel predicate: `img px py = true` iff the pixel at
column `px`, row `py` is black. -/
abbrev Image := Nat → Nat → Bool

/-- The canvas right after `draw.Draw(img, img.Bounds(), color.White, ...)`. -/
def whiteImage : Image := fun _ _ => false

/-- Model of `draw.Draw(img, image.Rect(x0, y0, x1, y1), color.Black, ...)`. -/
def fillRect (img : Image) (x0 y0 x1 y1 : Nat) : Image :=
  fun px py => if x0 ≤ px ∧ px < x1 ∧ y0 ≤ py ∧ py < y1 then true else img px py

/-- The module lookup `matrix[y][x]` (the encoder returns a square matrix, so the defaults are
never consulted on real inputs). -/
def matrixAt (m : List (List Bool)) (y x : Nat) : Bool :=
  (m.getD y []).getD x false

/-- The constant `border := 4` (quiet zone in modules). -/
def border : Nat := 4

/-- The constant `scale := 64` (pixels per module). -/
def scale : Nat := 64

/-- The canvas side `finalSize := (modules + border*2) * scale`. -/
def finalSize (modules : Nat) : Nat := (modules + border * 2) * scale

/-- The inner drawing loop (`for x := 0; x < modules; x++`) for one row `y`:
each dark module paints the 64×64 block at its scaled, border-shifted
offset. -/
def drawRow (m : List (List Bool)) (y : Nat) (img : Image) : Image :=
  (List.range m.length).foldl
    (fun img x =>
      if matrixAt m y x then
        fillRect img ((x + border) * scale) ((y + border) * scale)
          ((x + border) * scale + scale) ((y + border) * scale + scale)
      else img)
    img

/-- The outer drawing loop (`for y := 0; y < modules; y++`), applied to the
white canvas. -/
def drawModules (m : List (List Bool)) : Image :=
  (List.range m.length).foldl (fun img y => drawRow m y img) whiteImage

/-! ### The dispatch loop of `RunGenerate` (lines 197–221)

`sem := make(chan struct{}, 6)`; the main loop sends into `sem` before
spawning each worker goroutine and each worker receives from `sem` when it
finishes.  The loop's interleavings are modelled as a small-step relation on
an abstract pool state. -/

/-- State of the dispatch loop: records not yet dispatched, tokens currently
held in the semaphore channel, goroutines spawned but not yet running, and
goroutines currently executing `GenerateQR`. -/
structure PoolState where
  pending : Nat
  sem : Nat
  spawned : Nat
  running : Nat
deriving DecidableEq

/-- The state before the loop starts, for a given record list. -/
def initPool (rows : List Record) : PoolState :=
  ⟨rows.length, 0, 0, 0⟩

/-- One interleaving step of the dispatch loop.  `acquire` is the main
goroutine executing `sem <- struct{}{}; go func...` (it blocks while the
channel holds 6 tokens); `start` is the scheduler first running a spawned
worker; `finish` is a worker returning, whose deferred `<-sem` frees a slot. -/
inductive PoolStep : PoolState → PoolState → Prop
  | acquire (s : PoolState) (hp : 0 < s.pending) (hs : s.sem < 6) :
      PoolStep s ⟨s.pending - 1, s.sem + 1, s.spawned + 1, s.running⟩
  | start (s : PoolState) (h : 0 < s.spawned) :
      PoolStep s ⟨s.pending, s.sem, s.spawned - 1, s.running + 1⟩
  | finish (s : PoolState) (h : 0 < s.running) :
      PoolStep s ⟨s.pending, s.sem - 1, s.spawned, s.running - 1⟩

/-- States reachable by the dispatch loop on the given record list. -/
def PoolReachable (rows : List Record) (s : PoolState) : Prop :=
  Relation.ReflTransGen PoolStep (initPool rows) s

/-! ### Concrete fixtures used by witnesses and counterexamples -/

/-- An environment where every OS call succeeds and the encoder accepts
every payload. -/
def envAll : Env :=
  { mkdirOk := fun _ => true, createOk := fun _ => true, pngOk := fun _ => true,
    encode := fun _ => some [[true]], zipOk := true }

/-- The empty filesystem. -/
def fsEmpty : FS := ⟨[], []⟩

/-- A record with valid identity fields and a 501-character trimmed payload. -/
def rowLong : Record :=
  [(ofString "NO IDENTITAS", ofString "1111111111111111"),
   (ofString "NOMOR KK", ofString "2222222222222222"),
   (ofString "KODE QR", List.replicate 501 'A')]

/-- A record with valid identity fields and a 500-character trimmed payload. -/
def rowLong500 : Record :=
  [(ofString "NO IDENTITAS", ofString "1111111111111111"),
   (ofString "NOMOR KK", ofString "2222222222222222"),
   (ofString "KODE QR", List.replicate 500 'A')]

/-- A record whose national-ID field cleans to 3 digits (invalid). -/
def rowBadNik : Record :=
  [(ofString "NO IDENTITAS", ofString "123")]

/-- A fully valid record (the spec's end-to-end example row). -/
def rowJane : Record :=
  [(ofString "NO IDENTITAS", ofString "1234567890123456"),
   (ofString "NOMOR KK", ofString "6543210987654321"),
   (ofString "NAMA LENGKAP", ofString "Jane Doe"),
   (ofString "KECAMATAN", ofString "North"),
   (ofString "KELURAHAN", ofString "Central"),
   (ofString "KODE QR", ofString "HELLO")]

/-- A second valid record differing from `rowJane` in both identity fields. -/
def rowJohn : Record :=
  [(ofString "NO IDENTITAS", ofString "9999999999999999"),
   (ofString "NOMOR KK", ofString "8888888888888888"),
   (ofString "NAMA LENGKAP", ofString "John Roe"),
   (ofString "KECAMATAN", ofString "North"),
   (ofString "KELURAHAN", ofString "Central"),
   (ofString "KODE QR", ofString "WORLD")]

/-- Record `rowJane` extended with an extra column ignored by the pipeline. -/
def rowJaneExtra : Record := rowJane ++ [(ofString "EXTRA", ofString "zz")]

/-- An input file whose CSV stream holds a header and one valid data row. -/
def fileCsvOne : InputFile :=
  { excel := .error (ofString "not an excel file"),
    csv := [.ok [ofString "NO IDENTITAS", ofString "NOMOR KK", ofString "KODE QR"],
            .ok [ofString "1111111111111111", ofString "2222222222222222", ofString "HI"]] }

/-- The records `readCSV` produces from `fileCsvOne`. -/
def rowsCsvOne : List Record :=
  [mkRecord [ofString "NO IDENTITAS", ofString "NOMOR KK", ofString "KODE QR"]
    [ofString "1111111111111111", ofString "2222222222222222", ofString "HI"]]

/-- The result `RunGenerate` produces from `fileCsvOne` into `qr/batch` under
`envAll` on an empty filesystem. -/
def resCsvOne : Result := ⟨1, 0, 0, [], ofString "batch.zip"⟩

/-- An input file whose CSV stream holds only a header row. -/
def fileCsvHeaderOnly : InputFile :=
  { excel := .error (ofString "not an excel file"),
    csv := [.ok [ofString "A", ofString "B"]] }

/-- An input file whose spreadsheet parse holds only a header row. -/
def fileExcelHeaderOnly : InputFile :=
  { excel := .ok [[ofString "A", ofString "B"]],
    csv := [] }

/-! ## Helper lemmas -/

/-- Function `GenerateQR` returns exactly one of the four statuses on every record. -/
theorem GenerateQR_status_cases (env : Env) (fs : FS) (row : Record) (base : Str) :
    (GenerateQR env fs row base).1 = ofString "ok" ∨
    (GenerateQR env fs row base).1 = ofString "skip" ∨
    (GenerateQR env fs row base).1 = ofString "invalid" ∨
    (GenerateQR env fs row base).1 = ofString "error" := by
  cases henc : env.encode (qrValueOf row) <;>
    simp only [GenerateQR, henc] <;>
    split_ifs <;>
    first
      | exact Or.inl rfl
      | exact Or.inr (Or.inl rfl)
      | exact Or.inr (Or.inr (Or.inl rfl))
      | exact Or.inr (Or.inr (Or.inr rfl))

theorem applyOutcome_ok (res : Result) (msg : Str) :
    applyOutcome res (ofString "ok") msg = { res with Generated := res.Generated + 1 } := by
  unfold applyOutcome
  rw [if_pos rfl]

theorem applyOutcome_skip (res : Result) (msg : Str) :
    applyOutcome res (ofString "skip") msg = { res with Skipped := res.Skipped + 1 } := by
  unfold applyOutcome
  rw [if_neg (by decide), if_pos rfl]

theorem applyOutcome_invalid (res : Result) (msg : Str) :
    applyOutcome res (ofString "invalid") msg = { res with Invalid := res.Invalid + 1 } := by
  unfold applyOutcome
  rw [if_neg (by decide), if_neg (by decide), if_pos rfl]

theorem applyOutcome_error (res : Result) (msg : Str) :
    applyOutcome res (ofString "error") msg = { res with Errors := res.Errors ++ [msg] } := by
  unfold applyOutcome
  rw [if_neg (by decide), if_neg (by decide), if_neg (by decide), if_pos rfl]

/-- Each of the four statuses increments exactly one aggregate. -/
theorem totalOutcomes_applyOutcome (res : Result) (msg : Str) (st : Str)
    (h : st = ofString "ok" ∨ st = ofString "skip" ∨ st = ofString "invalid" ∨
      st = ofString "error") :
    totalOutcomes (applyOutcome res st msg) = totalOutcomes res + 1 := by
  rcases h with h | h | h | h <;> subst h
  · rw [applyOutcome_ok]; simp [totalOutcomes]; omega
  · rw [applyOutcome_skip]; simp [totalOutcomes]; omega
  · rw [applyOutcome_invalid]; simp [totalOutcomes]; omega
  · rw [applyOutcome_error]; simp [totalOutcomes]; omega

theorem processRows_cons (env : Env) (base : Str) (r : Record) (rest : List Record)
    (acc : Result × FS) :
    processRows env base (r :: rest) acc =
      processRows env base rest
        (applyOutcome acc.1 (GenerateQR env acc.2 r base).1 (GenerateQR env acc.2 r base).2.1,
         (GenerateQR env acc.2 r base).2.2) := rfl

/-- The fold preserves the counting invariant: each record adds exactly one to
the total. -/
theorem processRows_total (env : Env) (base : Str) :
    ∀ (rows : List Record) (res : Result) (fs : FS),
      totalOutcomes (processRows env base rows (res, fs)).1 = totalOutcomes res + rows.length := by
  intro rows
  induction rows with
  | nil => intro res fs; rfl
  | cons r rest ih =>
    intro res fs
    rw [processRows_cons]
    rw [ih]
    rw [totalOutcomes_applyOutcome _ _ _ (GenerateQR_status_cases env fs r base)]
    simp [List.length_cons]
    omega

/-! ## C1 -/

/-- C1: whenever `RunGenerate` completes successfully, the `Result` satisfies
`Generated + Skipped + Invalid + len(Errors) == len(records)` for the record
list produced by the reader; `GenerateQR` returns exactly one of the four
statuses per record (see `GenerateQR_status_cases`) and each status increments
exactly one aggregate. -/
theorem C1_result_total_invariant (env : Env) (fs : FS) (file : InputFile)
    (filePath outputFolder : Str) (rows : List Record) (res : Result)
    (hrows : readRows file (toLowerStr (pathExt filePath)) = .ok rows)
    (hok : (RunGenerate env fs file filePath outputFolder).1 = .ok res) :
    totalOutcomes res = rows.length := by
  simp only [RunGenerate, hrows] at hok
  by_cases hmk : env.mkdirOk outputFolder = false
  · rw [if_pos hmk] at hok
    exact absurd hok (by simp)
  · rw [if_neg hmk] at hok
    by_cases hz : env.zipOk = false
    · rw [if_pos hz] at hok
      exact absurd hok (by simp)
    · rw [if_neg hz] at hok
      simp only [Except.ok.injEq] at hok
      have htot :
          totalOutcomes
            { (processRows env outputFolder rows (initResult, mkdirAll fs outputFolder)).1 with
              ZipFilename := pathBase outputFolder ++ ofString ".zip" } =
          totalOutcomes
            (processRows env outputFolder rows (initResult, mkdirAll fs outputFolder)).1 := rfl
      rw [← hok, htot, processRows_total]
      simp [totalOutcomes, initResult]

/-- Witness for C1 at a concrete CSV input with one valid data row. -/
theorem C1_result_total_invariant_witness :
    readRows fileCsvOne (toLowerStr (pathExt (ofString "up/a.csv"))) = .ok rowsCsvOne ∧
    (RunGenerate envAll fsEmpty fileCsvOne (ofString "up/a.csv") (ofString "qr/batch")).1 =
      .ok resCsvOne ∧
    totalOutcomes resCsvOne = rowsCsvOne.length :=
  ⟨rfl, rfl,
    C1_result_total_invariant envAll fsEmpty fileCsvOne (ofString "up/a.csv")
      (ofString "qr/batch") rowsCsvOne resCsvOne rfl rfl⟩

theorem mkdirAll_files (fs : FS) (d : Str) : (mkdirAll fs d).files = fs.files := by
  unfold mkdirAll
  split <;> rfl

/-- On a record with valid identity fields whose derived path exists,
`GenerateQR` returns `skip` and only the `MkdirAll` side effect happens. -/
theorem GenerateQR_skip_of_exists (env : Env) (fs : FS) (row : Record) (base : Str)
    (h1 : (nikOf row).length = 16) (h2 : (kkOf row).length = 16)
    (hmk : env.mkdirOk (derivedFolder row base) = true)
    (hex : derivedPath row base ∈ fs.files) :
    GenerateQR env fs row base =
      (ofString "skip", derivedFilename row, mkdirAll fs (derivedFolder row base)) := by
  simp only [GenerateQR]
  rw [if_neg (fun hc => hc h1), if_neg (fun hc => hc h2), if_neg (by simp [hmk]),
    mkdirAll_files,
    if_pos (show joinPath (derivedFolder row base) (derivedFilename row) ∈ fs.files from hex)]

/-! ## C4 -/

/-- C4: if the cleaned national-ID or the cleaned household-ID is not exactly
16 characters long, `GenerateQR` returns `invalid` — never `ok` and never
`error` — for every environment, filesystem state and base folder. -/
theorem C4_bad_id_always_invalid (env : Env) (fs : FS) (row : Record) (base : Str)
    (h : (nikOf row).length ≠ 16 ∨ (kkOf row).length ≠ 16) :
    (GenerateQR env fs row base).1 = ofString "invalid" ∧
    (GenerateQR env fs row base).1 ≠ ofString "ok" ∧
    (GenerateQR env fs row base).1 ≠ ofString "error" := by
  have hmain : (GenerateQR env fs row base).1 = ofString "invalid" := by
    by_cases hn : (nikOf row).length ≠ 16
    · simp only [GenerateQR]
      rw [if_pos hn]
    · rcases h with h | h
      · exact absurd h hn
      · simp only [GenerateQR]
        rw [if_neg hn, if_pos h]
  refine ⟨hmain, ?_, ?_⟩ <;> rw [hmain] <;> decide

/-- Witness for C4: a record whose national-ID cleans to 3 digits. -/
theorem C4_bad_id_always_invalid_witness :
    (nikOf rowBadNik).length ≠ 16 ∧
    (GenerateQR envAll fsEmpty rowBadNik (ofString "out")).1 = ofString "invalid" :=
  ⟨by decide,
    (C4_bad_id_always_invalid envAll fsEmpty rowBadNik (ofString "out")
      (Or.inl (by decide))).1⟩

/-! ## C2 -/

set_option maxRecDepth 16000 in
/-- Counterexample to C2 as stated: a record whose identity fields pass the
16-digit checks and whose trimmed payload has length 501 yields `skip` — not
`Invalid` — when a file already exists at its derived path, because the
payload-length check runs after the skip-if-exists check. -/
theorem C2_counterexample :
    (nikOf rowLong).length = 16 ∧ (kkOf rowLong).length = 16 ∧
    (qrValueOf rowLong).length = 501 ∧
    (GenerateQR envAll ⟨[derivedPath rowLong (ofString "out")], []⟩ rowLong
      (ofString "out")).1 = ofString "skip" := by
  decide

/-- C2 (amended): for records whose identity fields pass the 16-digit checks,
a trimmed payload of length 501 yields `Invalid` provided directory creation
succeeds and no file exists yet at the derived path; and a trimmed payload of
length at most 500 never yields `Invalid` (in particular it is never rejected
by the length check). -/
theorem C2_payload_length_boundary (env : Env) (fs : FS) (row1 row2 : Record) (base : Str)
    (h11 : (nikOf row1).length = 16) (h12 : (kkOf row1).length = 16)
    (h21 : (nikOf row2).length = 16) (h22 : (kkOf row2).length = 16)
    (hmk : env.mkdirOk (derivedFolder row1 base) = true)
    (hnew : derivedPath row1 base ∉ fs.files)
    (hq1 : (qrValueOf row1).length = 501)
    (hq2 : (qrValueOf row2).length ≤ 500) :
    (GenerateQR env fs row1 base).1 = ofString "invalid" ∧
    (GenerateQR env fs row1 base).2.1 = ofString "QR content too long" ∧
    (GenerateQR env fs row2 base).1 ≠ ofString "invalid" := by
  have hfirst :
      GenerateQR env fs row1 base =
        (ofString "invalid", ofString "QR content too long",
          mkdirAll fs (derivedFolder row1 base)) := by
    simp only [GenerateQR]
    rw [if_neg (fun hc => hc h11), if_neg (fun hc => hc h12), if_neg (by simp [hmk]),
      mkdirAll_files,
      if_neg (show joinPath (derivedFolder row1 base) (derivedFilename row1) ∉ fs.files
        from hnew),
      if_pos (by omega)]
  have hsecond : (GenerateQR env fs row2 base).1 ≠ ofString "invalid" := by
    cases henc : env.encode (qrValueOf row2) <;>
      simp only [GenerateQR, henc] <;>
      rw [if_neg (fun hc => hc h21), if_neg (fun hc => hc h22)] <;>
      split_ifs <;>
      first
        | omega
        | exact ne_of_beq_false rfl
  exact ⟨by rw [hfirst], by rw [hfirst], hsecond⟩

set_option maxRecDepth 16000 in
/-- Witness for the amended C2, at a 501-character and a 500-character
payload. -/
theorem C2_payload_length_boundary_witness :
    (qrValueOf rowLong).length = 501 ∧ (qrValueOf rowLong500).length = 500 ∧
    (GenerateQR envAll fsEmpty rowLong (ofString "out")).1 = ofString "invalid" ∧
    (GenerateQR envAll fsEmpty rowLong500 (ofString "out")).1 ≠ ofString "invalid" := by
  refine ⟨by decide, by decide, ?_, ?_⟩
  · exact (C2_payload_length_boundary envAll fsEmpty rowLong rowLong500 (ofString "out")
      (by decide) (by decide) (by decide) (by decide) (by decide) (by decide)
      (by decide) (by decide)).1
  · exact (C2_payload_length_boundary envAll fsEmpty rowLong rowLong500 (ofString "out")
      (by decide) (by decide) (by decide) (by decide) (by decide) (by decide)
      (by decide) (by decide)).2.2

/-! ## C3 -/

/-- Counterexample to C3 as stated: a record whose derived output path exists
on the filesystem but whose national-ID fails the 16-digit check yields
`invalid`, not `Skipped`, because the identity checks run before the
existence check. -/
theorem C3_counterexample :
    derivedPath rowBadNik (ofString "out") ∈
      (FS.mk [derivedPath rowBadNik (ofString "out")] []).files ∧
    (GenerateQR envAll (FS.mk [derivedPath rowBadNik (ofString "out")] []) rowBadNik
      (ofString "out")).1 = ofString "invalid" := by
  decide

/-- Under an environment where directory creation succeeds, a fold over
records that all pass the identity checks and whose derived paths all exist
generates nothing (and writes no file). -/
theorem processRows_no_generate (env : Env) (base : Str) :
    ∀ (rows : List Record) (fs : FS) (res : Result),
      (∀ r ∈ rows, (nikOf r).length = 16 ∧ (kkOf r).length = 16 ∧
        env.mkdirOk (derivedFolder r base) = true ∧ derivedPath r base ∈ fs.files) →
      (processRows env base rows (res, fs)).1.Generated = res.Generated ∧
      (processRows env base rows (res, fs)).2.files = fs.files := by
  intro rows
  induction rows with
  | nil => intro fs res _; exact ⟨rfl, rfl⟩
  | cons r rest ih =>
    intro fs res hall
    obtain ⟨h1, h2, hmk, hex⟩ := hall r (List.mem_cons_self r rest)
    rw [processRows_cons]
    rw [GenerateQR_skip_of_exists env fs r base h1 h2 hmk hex]
    rw [applyOutcome_skip]
    have hrest : ∀ r' ∈ rest, (nikOf r').length = 16 ∧ (kkOf r').length = 16 ∧
        env.mkdirOk (derivedFolder r' base) = true ∧
        derivedPath r' base ∈ (mkdirAll fs (derivedFolder r base)).files := by
      intro r' hr'
      rw [mkdirAll_files]
      exact hall r' (List.mem_cons_of_mem r hr')
    obtain ⟨hg, hf⟩ := ih (mkdirAll fs (derivedFolder r base))
      { res with Skipped := res.Skipped + 1 } hrest
    exact ⟨hg, by rw [hf, mkdirAll_files]⟩

/-- C3 (amended): for every record that passes the 16-digit identity checks,
whose directory creation succeeds, and whose derived output path already
exists, `GenerateQR` returns `Skipped` and writes no file; consequently a fold
over any list of such records produces zero additional `Generated` outcomes
and leaves the set of files unchanged. -/
theorem C3_skip_existing_idempotent (env : Env) (fs : FS) (row : Record) (base : Str)
    (rows : List Record) (res : Result)
    (h1 : (nikOf row).length = 16) (h2 : (kkOf row).length = 16)
    (hmk : env.mkdirOk (derivedFolder row base) = true)
    (hex : derivedPath row base ∈ fs.files)
    (hall : ∀ r ∈ rows, (nikOf r).length = 16 ∧ (kkOf r).length = 16 ∧
      env.mkdirOk (derivedFolder r base) = true ∧ derivedPath r base ∈ fs.files) :
    (GenerateQR env fs row base).1 = ofString "skip" ∧
    (GenerateQR env fs row base).2.2.files = fs.files ∧
    (processRows env base rows (res, fs)).1.Generated = res.Generated := by
  have hone := GenerateQR_skip_of_exists env fs row base h1 h2 hmk hex
  refine ⟨by rw [hone], by rw [hone]; exact mkdirAll_files fs _, ?_⟩
  exact (processRows_no_generate env base rows fs res hall).1

/-- Witness for the amended C3: re-processing the spec's example record over
a filesystem already holding its output. -/
theorem C3_skip_existing_idempotent_witness :
    (GenerateQR envAll (FS.mk [derivedPath rowJane (ofString "out")] []) rowJane
      (ofString "out")).1 = ofString "skip" ∧
    (processRows envAll (ofString "out") [rowJane]
      (initResult, FS.mk [derivedPath rowJane (ofString "out")] [])).1.Generated = 0 := by
  have h := C3_skip_existing_idempotent envAll
    (FS.mk [derivedPath rowJane (ofString "out")] []) rowJane (ofString "out")
    [rowJane] initResult (by decide) (by decide) (by decide) (by decide)
    (by intro r hr
        rw [List.mem_singleton] at hr
        subst hr
        exact ⟨by decide, by decide, by decide, by decide⟩)
  exact ⟨h.1, h.2.2⟩

/-! ## C8 -/

/-- C8: a spreadsheet input with only a header row makes `RunGenerate` fail
with the empty-dataset error (`"empty excel file"`) and leave the filesystem
untouched (in particular the output directory is not created); an unrecognized
extension makes it fail with the format error before any record processing,
likewise leaving the filesystem untouched. -/
theorem C8_fatal_reader_errors (env : Env) (fs : FS) (file file' : InputFile)
    (filePath filePath' outputFolder : Str) (headers : List Str)
    (hext : toLowerStr (pathExt filePath) = ofString ".xlsx" ∨
      toLowerStr (pathExt filePath) = ofString ".xls")
    (hfile : file.excel = .ok [headers])
    (hext' : toLowerStr (pathExt filePath') ≠ ofString ".xlsx" ∧
      toLowerStr (pathExt filePath') ≠ ofString ".xls" ∧
      toLowerStr (pathExt filePath') ≠ ofString ".csv") :
    RunGenerate env fs file filePath outputFolder =
      (.error (ofString "empty excel file"), fs) ∧
    RunGenerate env fs file' filePath' outputFolder =
      (.error (ofString "unsupported file format: " ++ toLowerStr (pathExt filePath')), fs) := by
  constructor
  · have hread : readRows file (toLowerStr (pathExt filePath)) =
        .error (ofString "empty excel file") := by
      unfold readRows
      rw [if_pos hext, hfile]
      rfl
    simp only [RunGenerate, hread]
  · have hread : readRows file' (toLowerStr (pathExt filePath')) =
        .error (ofString "unsupported file format: " ++ toLowerStr (pathExt filePath')) := by
      unfold readRows
      rw [if_neg (by rintro (h | h); exacts [hext'.1 h, hext'.2.1 h]), if_neg hext'.2.2]
    simp only [RunGenerate, hread]

/-- Witness for C8: a header-only `.xlsx` parse and a `.txt` extension. -/
theorem C8_fatal_reader_errors_witness :
    RunGenerate envAll fsEmpty fileExcelHeaderOnly (ofString "up/a.xlsx") (ofString "qr/batch") =
      (.error (ofString "empty excel file"), fsEmpty) ∧
    RunGenerate envAll fsEmpty fileCsvOne (ofString "up/a.txt") (ofString "qr/batch") =
      (.error (ofString "unsupported file format: " ++
        toLowerStr (pathExt (ofString "up/a.txt"))), fsEmpty) :=
  C8_fatal_reader_errors envAll fsEmpty fileExcelHeaderOnly fileCsvOne
    (ofString "up/a.xlsx") (ofString "up/a.txt") (ofString "qr/batch")
    [ofString "A", ofString "B"] (Or.inl (by decide)) rfl
    ⟨by decide, by decide, by decide⟩

/-! ## C10 -/

/-- C10: a CSV input with a header row and zero data rows does not fail:
`RunGenerate` returns a `Result` with all counters zero and an empty error
list, creates the output directory, and produces the archive — while the same
shape on the spreadsheet path is the fatal empty-dataset error. -/
theorem C10_csv_header_only_succeeds (env : Env) (fs : FS) (file : InputFile)
    (filePath outputFolder : Str) (headers : List Str)
    (hext : toLowerStr (pathExt filePath) = ofString ".csv")
    (hcsv : file.csv = [.ok headers])
    (hmk : env.mkdirOk outputFolder = true)
    (hzip : env.zipOk = true) :
    (RunGenerate env fs file filePath outputFolder).1 =
      .ok ⟨0, 0, 0, [], pathBase outputFolder ++ ofString ".zip"⟩ ∧
    outputFolder ∈ (RunGenerate env fs file filePath outputFolder).2.dirs ∧
    joinPath (pathDir outputFolder) (pathBase outputFolder ++ ofString ".zip") ∈
      (RunGenerate env fs file filePath outputFolder).2.files ∧
    readExcel (.ok [headers]) = .error (ofString "empty excel file") := by
  have hread : readRows file (toLowerStr (pathExt filePath)) = .ok [] := by
    unfold readRows
    rw [if_neg (by rw [hext]; rintro (h | h) <;> exact absurd h (by decide)), if_pos hext,
      hcsv]
    rfl
  have hrun : RunGenerate env fs file filePath outputFolder =
      (.ok ⟨0, 0, 0, [], pathBase outputFolder ++ ofString ".zip"⟩,
       { mkdirAll fs outputFolder with
         files := joinPath (pathDir outputFolder) (pathBase outputFolder ++ ofString ".zip") ::
           (mkdirAll fs outputFolder).files }) := by
    simp only [RunGenerate, hread]
    rw [if_neg (by simp [hmk]), if_neg (by simp [hzip])]
    rfl
  refine ⟨by rw [hrun], ?_, ?_, rfl⟩
  · rw [hrun]
    show outputFolder ∈ (mkdirAll fs outputFolder).dirs
    unfold mkdirAll
    split
    · assumption
    · exact List.mem_cons_self _ _
  · rw [hrun]
    exact List.mem_cons_self _ _

/-- Witness for C10 at a concrete header-only CSV file. -/
theorem C10_csv_header_only_succeeds_witness :
    (RunGenerate envAll fsEmpty fileCsvHeaderOnly (ofString "up/a.csv")
      (ofString "qr/batch")).1 =
      .ok ⟨0, 0, 0, [], pathBase (ofString "qr/batch") ++ ofString ".zip"⟩ ∧
    ofString "qr/batch" ∈ (RunGenerate envAll fsEmpty fileCsvHeaderOnly (ofString "up/a.csv")
      (ofString "qr/batch")).2.dirs :=
  have h := C10_csv_header_only_succeeds envAll fsEmpty fileCsvHeaderOnly
    (ofString "up/a.csv") (ofString "qr/batch") [ofString "A", ofString "B"]
    (by decide) rfl rfl rfl
  ⟨h.1, h.2.1⟩

/-! ## C9 -/

/-- Inductive invariant of the dispatch loop: every spawned-or-running worker
holds a semaphore token, and the channel never holds more than its capacity
of 6 tokens. -/
theorem pool_invariant (rows : List Record) (s : PoolState)
    (h : PoolReachable rows s) : s.spawned + s.running ≤ s.sem ∧ s.sem ≤ 6 := by
  induction h with
  | refl => simp [initPool]
  | tail _ step ih =>
    cases step with
    | acquire hp hs => simp only at ih ⊢; omega
    | start ht => simp only at ih ⊢; omega
    | finish ht => simp only at ih ⊢; omega

/-- C9: in every state the dispatch loop of `RunGenerate` can reach, at most
6 record-processing workers execute simultaneously — each dispatch first
acquires one of the 6 semaphore slots (`sem <- struct{}{}` on a channel of
capacity 6) and blocks while all slots are held. -/
theorem C9_bounded_concurrency (rows : List Record) (s : PoolState)
    (h : PoolReachable rows s) : s.running ≤ 6 := by
  have hinv := pool_invariant rows s h
  omega

/-- Witness for C9: the state right after the first dispatch on a one-record
input. -/
theorem C9_bounded_concurrency_witness : (PoolState.mk 0 1 1 0).running ≤ 6 :=
  C9_bounded_concurrency [rowJane] ⟨0, 1, 1, 0⟩
    (Relation.ReflTransGen.single
      (PoolStep.acquire ⟨1, 0, 0, 0⟩ (by decide) (by decide)))

/-! ## C6 -/

theorem foldl_cons_acc {α : Type} : ∀ (l acc : List α),
    l.foldl (fun d kv => kv :: d) acc = l.reverse ++ acc := by
  intro l
  induction l with
  | nil => intro acc; rfl
  | cons a t ih =>
    intro acc
    show t.foldl (fun d kv => kv :: d) (a :: acc) = (a :: t).reverse ++ acc
    rw [ih (a :: acc)]
    simp

theorem mkRecord_eq (headers cells : List Str) :
    mkRecord headers cells = (headers.zip cells).reverse := by
  unfold mkRecord
  rw [foldl_cons_acc]
  simp

theorem mem_fst_zip_iff : ∀ (hs cs : List Str) (k : Str),
    (∃ kv ∈ hs.zip cs, kv.1 = k) ↔ k ∈ hs.take cs.length := by
  intro hs
  induction hs with
  | nil => intro cs k; simp
  | cons a hs ih =>
    intro cs k
    cases cs with
    | nil => simp
    | cons c cs =>
      simp only [List.zip_cons_cons, List.mem_cons, List.length_cons, List.take_succ_cons]
      constructor
      · rintro ⟨kv, hkv | hkv, hk⟩
        · subst hkv; exact Or.inl hk.symm
        · exact Or.inr ((ih cs k).mp ⟨kv, hkv, hk⟩)
      · rintro (hk | hk)
        · exact ⟨(a, c), Or.inl rfl, hk.symm⟩
        · obtain ⟨kv, hkv, hk⟩ := (ih cs k).mpr hk
          exact ⟨kv, Or.inr hkv, hk⟩

/-- The record built from a header row and a (possibly shorter) cell row has
exactly the keys among the first `cells.length` header names. -/
theorem hasField_mkRecord (headers cells : List Str) (k : Str) :
    hasField (mkRecord headers cells) k = true ↔ k ∈ headers.take cells.length := by
  unfold hasField
  rw [mkRecord_eq, List.any_reverse, List.any_eq_true]
  simp only [decide_eq_true_eq]
  exact mem_fst_zip_iff headers cells k

/-- Dropping behaviour of the CSV read loop: a record whose field count
differs from the header's contributes nothing. -/
theorem csvRecords_drop (headers rec : List Str)
    (hlen : rec.length ≠ headers.length) :
    ∀ (pre post : List CsvItem),
      csvRecords headers (pre ++ .ok rec :: post) = csvRecords headers (pre ++ post) := by
  intro pre
  induction pre with
  | nil =>
    intro post
    show (if rec.length = headers.length then
        mkRecord headers rec :: csvRecords headers post
      else csvRecords headers post) = csvRecords headers post
    rw [if_neg hlen]
  | cons it pre ih =>
    intro post
    cases it with
    | error e =>
      show csvRecords headers (.error e :: (pre ++ .ok rec :: post)) =
        csvRecords headers (.error e :: (pre ++ post))
      unfold csvRecords
      exact ih post
    | ok rec' =>
      show csvRecords headers (.ok rec' :: (pre ++ .ok rec :: post)) =
        csvRecords headers (.ok rec' :: (pre ++ post))
      unfold csvRecords
      rw [ih post]

/-- Counterexample to C6 as stated: for header `[A, B]` and the one-cell data
row `[x]`, the CSV reader produces no record at all — the short row is
dropped (`csv.Reader` returns `ErrFieldCount` for it and the loop `continue`s)
— while the spreadsheet reader keeps it as a partial record. -/
theorem C6_counterexample :
    readCSV [.ok [ofString "A", ofString "B"], .ok [ofString "x"]] =
      .ok ([] : List Record) ∧
    readExcel (.ok [[ofString "A", ofString "B"], [ofString "x"]]) =
      .ok [mkRecord [ofString "A", ofString "B"] [ofString "x"]] :=
  ⟨rfl, rfl⟩

/-- C6 (amended): the spreadsheet reader keeps a data row with fewer cells
than the header, mapping only the cells the row has (a header name is a key of
the record iff it is among the first `cells.length` header names); the CSV
reader instead drops every data row whose cell count differs from the
header's. -/
theorem C6_short_rows (headers cells d : List Str) (dataRows : List (List Str))
    (k : Str) (rec : List Str) (pre post : List CsvItem)
    (hlen : rec.length ≠ headers.length) :
    readExcel (.ok (headers :: d :: dataRows)) =
      .ok ((d :: dataRows).map (mkRecord headers)) ∧
    (hasField (mkRecord headers cells) k = true ↔ k ∈ headers.take cells.length) ∧
    readCSV (.ok headers :: (pre ++ .ok rec :: post)) =
      readCSV (.ok headers :: (pre ++ post)) := by
  refine ⟨rfl, hasField_mkRecord headers cells k, ?_⟩
  show Except.ok (csvRecords headers (pre ++ .ok rec :: post)) =
    Except.ok (csvRecords headers (pre ++ post))
  rw [csvRecords_drop headers rec hlen pre post]

/-- Witness for the amended C6 at header `[A, B]`, data row `[x]`. -/
theorem C6_short_rows_witness :
    readExcel (.ok [[ofString "A", ofString "B"], [ofString "x"]]) =
      .ok [mkRecord [ofString "A", ofString "B"] [ofString "x"]] ∧
    (hasField (mkRecord [ofString "A", ofString "B"] [ofString "x"]) (ofString "B") = true ↔
      ofString "B" ∈ [ofString "A", ofString "B"].take 1) ∧
    readCSV [.ok [ofString "A", ofString "B"], .ok [ofString "x"]] =
      readCSV [.ok [ofString "A", ofString "B"]] :=
  C6_short_rows [ofString "A", ofString "B"] [ofString "x"] [ofString "x"] []
    (ofString "B") [ofString "x"] [] [] (by decide)

/-! ## C5 -/

theorem fillRect_spec (img : Image) (x0 y0 x1 y1 px py : Nat) :
    fillRect img x0 y0 x1 y1 px py = true ↔
      (x0 ≤ px ∧ px < x1 ∧ y0 ≤ py ∧ py < y1) ∨ img px py = true := by
  unfold fillRect
  split_ifs with h
  · simp [h]
  · simp [h]

theorem drawRowAux_spec (m : List (List Bool)) (y : Nat) :
    ∀ (xs : List Nat) (img : Image) (px py : Nat),
      ((xs.foldl
        (fun img x =>
          if matrixAt m y x then
            fillRect img ((x + border) * scale) ((y + border) * scale)
              ((x + border) * scale + scale) ((y + border) * scale + scale)
          else img)
        img) px py = true) ↔
      (img px py = true ∨ ∃ x ∈ xs, matrixAt m y x = true ∧
        (x + border) * scale ≤ px ∧ px < (x + border) * scale + scale ∧
        (y + border) * scale ≤ py ∧ py < (y + border) * scale + scale) := by
  intro xs
  induction xs with
  | nil => simp
  | cons a xs ih =>
    intro img px py
    rw [List.foldl_cons, ih]
    by_cases ha : matrixAt m y a = true
    · rw [if_pos ha]
      rw [fillRect_spec]
      simp only [List.exists_mem_cons_iff, ha, true_and]
      constructor
      · rintro ((hb | hi) | hc)
        · exact Or.inr (Or.inl hb)
        · exact Or.inl hi
        · exact Or.inr (Or.inr hc)
      · rintro (hi | hb | hc)
        · exact Or.inl (Or.inr hi)
        · exact Or.inl (Or.inl hb)
        · exact Or.inr hc
    · rw [if_neg ha]
      simp only [List.exists_mem_cons_iff]
      have ha' : matrixAt m y a = false := by
        cases hb : matrixAt m y a
        · rfl
        · exact absurd hb ha
      simp [ha']

theorem drawRow_spec (m : List (List Bool)) (y : Nat) (img : Image) (px py : Nat) :
    drawRow m y img px py = true ↔
      (img px py = true ∨ ∃ x, x < m.length ∧ matrixAt m y x = true ∧
        (x + border) * scale ≤ px ∧ px < (x + border) * scale + scale ∧
        (y + border) * scale ≤ py ∧ py < (y + border) * scale + scale) := by
  unfold drawRow
  rw [drawRowAux_spec]
  constructor
  · rintro (h | ⟨x, hx, hrest⟩)
    · exact Or.inl h
    · exact Or.inr ⟨x, List.mem_range.mp hx, hrest⟩
  · rintro (h | ⟨x, hx, hrest⟩)
    · exact Or.inl h
    · exact Or.inr ⟨x, List.mem_range.mpr hx, hrest⟩

theorem drawModulesAux_spec (m : List (List Bool)) :
    ∀ (ys : List Nat) (img : Image) (px py : Nat),
      ((ys.foldl (fun img y => drawRow m y img) img) px py = true) ↔
      (img px py = true ∨ ∃ y ∈ ys, ∃ x, x < m.length ∧ matrixAt m y x = true ∧
        (x + border) * scale ≤ px ∧ px < (x + border) * scale + scale ∧
        (y + border) * scale ≤ py ∧ py < (y + border) * scale + scale) := by
  intro ys
  induction ys with
  | nil => simp
  | cons a ys ih =>
    intro img px py
    rw [List.foldl_cons, ih, drawRow_spec]
    simp only [List.exists_mem_cons_iff]
    exact or_assoc

/-- C5: a pixel of the rendered canvas is black iff it lies in the 64×64
block of some dark module shifted by the 4-module quiet zone; every black
pixel lies inside the `(modules + 2*4) * 64`-sized square canvas, and every
other pixel keeps the white background (the canvas starts as `whiteImage`).
-/
theorem C5_render_exact (m : List (List Bool))
    (hsq : ∀ row ∈ m, row.length = m.length) (px py : Nat) :
    (drawModules m px py = true ↔
      ∃ y, y < m.length ∧ ∃ x, x < m.length ∧ matrixAt m y x = true ∧
        (x + border) * scale ≤ px ∧ px < (x + border) * scale + scale ∧
        (y + border) * scale ≤ py ∧ py < (y + border) * scale + scale) ∧
    (drawModules m px py = true → px < finalSize m.length ∧ py < finalSize m.length) := by
  have hiff : drawModules m px py = true ↔
      ∃ y, y < m.length ∧ ∃ x, x < m.length ∧ matrixAt m y x = true ∧
        (x + border) * scale ≤ px ∧ px < (x + border) * scale + scale ∧
        (y + border) * scale ≤ py ∧ py < (y + border) * scale + scale := by
    unfold drawModules
    rw [drawModulesAux_spec]
    simp only [whiteImage, Bool.false_eq_true, false_or]
    constructor
    · rintro ⟨y, hy, hrest⟩
      exact ⟨y, List.mem_range.mp hy, hrest⟩
    · rintro ⟨y, hy, hrest⟩
      exact ⟨y, List.mem_range.mpr hy, hrest⟩
  refine ⟨hiff, fun h => ?_⟩
  obtain ⟨y, hy, x, hx, _, hx1, hx2, hy1, hy2⟩ := hiff.mp h
  simp only [border, scale, finalSize] at *
  omega

/-- Witness for C5 on the 1×1 matrix with a dark module, at the pixel
`(256, 256)` (the top-left pixel of the module's block behind the quiet
zone). -/
theorem C5_render_exact_witness :
    (∀ row ∈ [[true]], row.length = 1) ∧
    (drawModules [[true]] 256 256 = true ↔
      ∃ y, y < 1 ∧ ∃ x, x < 1 ∧ matrixAt [[true]] y x = true ∧
        (x + border) * scale ≤ 256 ∧ 256 < (x + border) * scale + scale ∧
        (y + border) * scale ≤ 256 ∧ 256 < (y + border) * scale + scale) :=
  ⟨by decide, (C5_render_exact [[true]] (by decide) 256 256).1⟩

/-! ## C7 -/

theorem mem_sanitizeCore {allowed : Char → Bool} {s : Str} {c : Char}
    (h : c ∈ sanitizeCore allowed s) : allowed c = true ∨ c = '_' := by
  unfold sanitizeCore at h
  obtain ⟨a, _, rfl⟩ := List.mem_map.mp h
  by_cases hall : allowed a = true
  · rw [if_pos hall]
    exact Or.inl hall
  · rw [if_neg hall]
    exact Or.inr rfl

theorem mem_trimUnderscore {s : Str} {c : Char} (h : c ∈ trimUnderscore s) : c ∈ s := by
  unfold trimUnderscore at h
  rw [List.mem_reverse] at h
  have h1 := (List.dropWhile_sublist _).subset h
  rw [List.mem_reverse] at h1
  exact (List.dropWhile_sublist _).subset h1

/-- Every character of a sanitized filename is in `[A-Za-z0-9._-]` and in
particular is not a path separator. -/
theorem sanitizeFilename_no_slash {s : Str} {c : Char}
    (h : c ∈ SanitizeFilename s) : (c == '/') = false := by
  have h2 := mem_sanitizeCore (mem_trimUnderscore h)
  cases hb : c == '/'
  · rfl
  · exfalso
    have hc : c = '/' := eq_of_beq hb
    subst hc
    rcases h2 with h2 | h2
    · exact absurd h2 (by decide)
    · exact absurd h2 (by decide)

theorem digit_isFilenameChar {c : Char} (h : c.isDigit = true) :
    isFilenameChar c = true := by
  simp [isFilenameChar, Char.isAlphanum, h]

theorem digit_ne_underscore {c : Char} (h : c.isDigit = true) : (c == '_') = false := by
  cases hb : c == '_'
  · rfl
  · exfalso
    have hc : c = '_' := eq_of_beq hb
    subst hc
    exact absurd h (by decide)

/-- Output of `CleanNumber` is all digits. -/
theorem cleanNumber_digits {s : Str} {c : Char} (h : c ∈ CleanNumber s) :
    c.isDigit = true := List.of_mem_filter h

theorem sanitizeCore_append (allowed : Char → Bool) (a b : Str) :
    sanitizeCore allowed (a ++ b) = sanitizeCore allowed a ++ sanitizeCore allowed b :=
  List.map_append _ a b

/-- All-digit strings are fixed by the filename sanitizer's replacement map. -/
theorem sanitizeCore_digits {s : Str} (h : ∀ c ∈ s, c.isDigit = true) :
    sanitizeCore isFilenameChar s = s := by
  unfold sanitizeCore
  have heq : ∀ c ∈ s, (if isFilenameChar c then c else '_') = c := by
    intro c hc
    exact if_pos (digit_isFilenameChar (h c hc))
  rw [List.map_congr_left heq]
  simp

/-- Trimming underscores is the identity on strings that start and end with
a non-underscore. -/
theorem trimUnderscore_of_ends (a z : Char) (mid : Str)
    (ha : (a == '_') = false) (hz : (z == '_') = false) :
    trimUnderscore (a :: (mid ++ [z])) = a :: (mid ++ [z]) := by
  unfold trimUnderscore
  rw [List.dropWhile_cons]
  simp only [ha, Bool.false_eq_true, if_false]
  rw [show (a :: (mid ++ [z])).reverse = z :: (mid.reverse ++ [a]) by simp]
  rw [List.dropWhile_cons]
  simp only [hz, Bool.false_eq_true, if_false]
  simp

/-- For a record whose cleaned national-ID is nonempty (e.g. 16 digits long),
the outer sanitization of the filename is inert on the `nik-noKK-` skeleton:
the derived filename is literally the two IDs and the name part joined by
hyphens with the `.png` suffix. -/
theorem derivedFilename_shape (row : Record) (h1 : (nikOf row).length = 16) :
    derivedFilename row =
      nikOf row ++ '-' :: (kkOf row ++ '-' ::
        (sanitizeCore isFilenameChar (namaOf row) ++ ofString ".png")) := by
  have hnikd : ∀ c ∈ nikOf row, c.isDigit = true := fun _ hc => cleanNumber_digits hc
  have hkkd : ∀ c ∈ kkOf row, c.isDigit = true := fun _ hc => cleanNumber_digits hc
  unfold derivedFilename SanitizeFilename
  show trimUnderscore (sanitizeCore isFilenameChar
      (nikOf row ++ ['-'] ++ kkOf row ++ ['-'] ++ namaOf row ++ ['.', 'p', 'n', 'g'])) =
    nikOf row ++ '-' :: (kkOf row ++ '-' ::
      (sanitizeCore isFilenameChar (namaOf row) ++ ['.', 'p', 'n', 'g']))
  rw [sanitizeCore_append, sanitizeCore_append, sanitizeCore_append, sanitizeCore_append,
    sanitizeCore_append, sanitizeCore_digits hnikd, sanitizeCore_digits hkkd,
    show sanitizeCore isFilenameChar ['-'] = ['-'] from by decide,
    show sanitizeCore isFilenameChar ['.', 'p', 'n', 'g'] = ['.', 'p', 'n', 'g'] from by decide]
  cases hnik : nikOf row with
  | nil => rw [hnik] at h1; simp at h1
  | cons d t =>
    have hd : d.isDigit = true := hnikd d (by rw [hnik]; exact List.mem_cons_self _ _)
    have hshape : (d :: t) ++ ['-'] ++ kkOf row ++ ['-'] ++
        sanitizeCore isFilenameChar (namaOf row) ++ ['.', 'p', 'n', 'g'] =
        d :: ((t ++ ['-'] ++ kkOf row ++ ['-'] ++
          sanitizeCore isFilenameChar (namaOf row) ++ ['.', 'p', 'n']) ++ ['g']) := by
      simp [List.append_assoc]
    rw [hshape, trimUnderscore_of_ends d 'g' _ (digit_ne_underscore hd) (by decide)]
    simp [List.append_assoc]

theorem takeWhile_all_append (p : Char → Bool) :
    ∀ (xs : Str) (a : Char) (ys : Str), (∀ x ∈ xs, p x = true) → p a = false →
      ((xs ++ a :: ys).takeWhile p) = xs := by
  intro xs
  induction xs with
  | nil =>
    intro a ys _ ha
    show List.takeWhile p (a :: ys) = []
    rw [List.takeWhile_cons]
    simp [ha]
  | cons x xt ih =>
    intro a ys hall ha
    show List.takeWhile p (x :: (xt ++ a :: ys)) = x :: xt
    rw [List.takeWhile_cons]
    rw [hall x (List.mem_cons_self _ _)]
    simp only [if_true]
    rw [ih a ys (fun c hc => hall c (List.mem_cons_of_mem _ hc)) ha]

/-- A `/`-separated path determines its last component when that component is
separator-free. -/
theorem tail_after_slash (p1 p2 f1 f2 : Str)
    (hf1 : ∀ c ∈ f1, (c == '/') = false) (hf2 : ∀ c ∈ f2, (c == '/') = false)
    (heq : p1 ++ '/' :: f1 = p2 ++ '/' :: f2) : f1 = f2 := by
  have h := congrArg List.reverse heq
  simp only [List.reverse_append, List.reverse_cons, List.append_assoc,
    List.singleton_append] at h
  have ht := congrArg (List.takeWhile fun c => !(c == '/')) h
  rw [takeWhile_all_append _ f1.reverse '/' p1.reverse
      (fun c hc => by rw [List.mem_reverse] at hc; simp [hf1 c hc]) (by decide),
    takeWhile_all_append _ f2.reverse '/' p2.reverse
      (fun c hc => by rw [List.mem_reverse] at hc; simp [hf2 c hc]) (by decide)] at ht
  exact List.reverse_inj.mp ht

/-- C7: the derived output path is a pure function of the record's consumed
fields (second conjunct: records agreeing on the five consumed fields derive
the same path), and two records whose validated identity fields (the cleaned
16-digit national-ID / household-ID pair) differ derive distinct paths, so
concurrent workers of one run write different records to disjoint paths. -/
theorem C7_derived_path_pure_injective (base : Str) (r1 r2 r3 r4 : Record)
    (h11 : (nikOf r1).length = 16) (h12 : (kkOf r1).length = 16)
    (h21 : (nikOf r2).length = 16) (h22 : (kkOf r2).length = 16)
    (hne : nikOf r1 ≠ nikOf r2 ∨ kkOf r1 ≠ kkOf r2)
    (hk1 : lookupField r3 (ofString "NO IDENTITAS") = lookupField r4 (ofString "NO IDENTITAS"))
    (hk2 : lookupField r3 (ofString "NOMOR KK") = lookupField r4 (ofString "NOMOR KK"))
    (hk3 : lookupField r3 (ofString "NAMA LENGKAP") = lookupField r4 (ofString "NAMA LENGKAP"))
    (hk4 : lookupField r3 (ofString "KECAMATAN") = lookupField r4 (ofString "KECAMATAN"))
    (hk5 : lookupField r3 (ofString "KELURAHAN") = lookupField r4 (ofString "KELURAHAN")) :
    derivedPath r1 base ≠ derivedPath r2 base ∧
    derivedPath r3 base = derivedPath r4 base := by
  constructor
  · intro heq
    have hfeq : derivedFilename r1 = derivedFilename r2 :=
      tail_after_slash (derivedFolder r1 base) (derivedFolder r2 base)
        (derivedFilename r1) (derivedFilename r2)
        (fun c hc => sanitizeFilename_no_slash hc)
        (fun c hc => sanitizeFilename_no_slash hc) heq
    rw [derivedFilename_shape r1 h11, derivedFilename_shape r2 h21] at hfeq
    obtain ⟨hnik, htail⟩ := List.append_inj hfeq (h11.trans h21.symm)
    injection htail with _ htail2
    obtain ⟨hkk, _⟩ := List.append_inj htail2 (h12.trans h22.symm)
    rcases hne with hne | hne
    · exact hne hnik
    · exact hne hkk
  · simp only [derivedPath, derivedFolder, derivedFilename, nikOf, kkOf, namaOf, kecOf,
      kelOf, hk1, hk2, hk3, hk4, hk5]

/-- Witness for C7: two fully distinct valid records derive distinct paths,
and an ignored extra column does not change the derived path. -/
theorem C7_derived_path_pure_injective_witness :
    derivedPath rowJane (ofString "out") ≠ derivedPath rowJohn (ofString "out") ∧
    derivedPath rowJane (ofString "out") = derivedPath rowJaneExtra (ofString "out") :=
  C7_derived_path_pure_injective (ofString "out") rowJane rowJohn rowJane rowJaneExtra
    (by decide) (by decide) (by decide) (by decide) (Or.inl (by decide))
    (by decide) (by decide) (by decide) (by decide) (by decide)

end GenQR
